import Mathlib

/-
Shallow embedding of a small horse-marketplace web application (src/app.py).

Data model: User, Horse (listing), Order rows of the relational store;
the DB structure is the persistent state.  Each Flask route handler is
embedded as a pure function from its inputs (authenticated user, parsed
form data, blob-storage environment) and the current DB to either an
application-level error or the committed successor DB.  An `Except.error`
result models a request that ends in a redirect/abort before
`db.session.commit()`, so the persistent state is unchanged.

Strings are modelled by `String` (Python `str.strip` as `pyStrip`,
`str.lower` as `pyLower`); `int(...)`/`float(...)` parsing by
`pyInt`/`pyFloat` over decimal literals, with Python floats modelled as
rationals; the Azure blob SDK by a `BlobEnv` describing the connection
string and the outcome the backend would produce.
-/

deriving instance DecidableEq for Except

namespace Market

structure User where
  id : Nat
  email : String
  passwordHash : String
  role : String
deriving DecidableEq, Repr

structure Horse where
  id : Nat
  name : String
  breed : String
  age : Int
  price : Rat
  description : Option String
  location : Option String
  status : String
  imageUrl : Option String
  sellerId : Option Nat
deriving DecidableEq, Repr

structure Order where
  id : Nat
  buyerId : Nat
  horseId : Nat
  priceAtPurchase : Rat
  status : String
  fullName : String
  phone : Option String
  address : String
deriving DecidableEq, Repr

structure DB where
  users : List User
  horses : List Horse
  orders : List Order
  nextHorseId : Nat
  nextOrderId : Nat
deriving DecidableEq, Repr

def DB.empty : DB := ⟨[], [], [], 1, 1⟩

/-- An uploaded multipart file; only its filename matters to the logic. -/
structure UFile where
  filename : String
deriving DecidableEq, Repr

/-- Outcome the Azure blob backend would produce for an upload attempt. -/
inductive BlobBackend
  | ok (url : String)
  | exn (msg : String)
deriving DecidableEq, Repr

structure BlobEnv where
  connectionString : Option String
  backend : BlobBackend
deriving DecidableEq, Repr

inductive AppError
  | notFound
  | forbidden
  | validation (msg : String)
  | domainConflict (msg : String)
  | authError (msg : String)
deriving DecidableEq, Repr

/-- Leading and trailing whitespace removed, as Python `str.strip()`. -/
def stripChars (cs : List Char) : List Char :=
  ((cs.dropWhile Char.isWhitespace).reverse.dropWhile Char.isWhitespace).reverse

/-- Python `s.strip()` on a string. -/
def pyStrip (s : String) : String := ⟨stripChars s.toList⟩

/-- Python `s.lower()` on a string. -/
def pyLower (s : String) : String := ⟨s.toList.map Char.toLower⟩

/-- Digits accumulated left to right, as Python int parsing does. -/
def parseDigitsAux : List Char → Nat → Option Nat
  | [], acc => some acc
  | c :: cs, acc =>
    if c.isDigit then parseDigitsAux cs (acc * 10 + (c.toNat - 48)) else none

def parseDigits : List Char → Option Nat
  | [] => none
  | c :: cs => parseDigitsAux (c :: cs) 0

def pyIntCore : List Char → Option Int
  | '+' :: cs => (parseDigits cs).map (fun n => (n : Int))
  | '-' :: cs => (parseDigits cs).map (fun n => -(n : Int))
  | cs => (parseDigits cs).map (fun n => (n : Int))

/-- Python `int(s)`: strip whitespace, optional sign, decimal digits. -/
def pyInt (s : String) : Option Int := pyIntCore (stripChars s.toList)

def digitsToNat (cs : List Char) : Nat :=
  cs.foldl (fun a c => a * 10 + (c.toNat - 48)) 0

def pyFloatBody (cs : List Char) : Option Rat :=
  let ip := cs.takeWhile Char.isDigit
  let rest := cs.dropWhile Char.isDigit
  match rest with
  | [] => if ip = [] then none else some (digitsToNat ip)
  | '.' :: fp =>
    if fp.all Char.isDigit ∧ (ip ≠ [] ∨ fp ≠ []) then
      some ((digitsToNat ip : Rat) + (digitsToNat fp : Rat) / ((10 : Rat) ^ fp.length))
    else none
  | _ => none

def pyFloatCore : List Char → Option Rat
  | '+' :: cs => pyFloatBody cs
  | '-' :: cs => (pyFloatBody cs).map (fun q => -q)
  | cs => pyFloatBody cs

/-- Python `float(s)` restricted to decimal literals, as a rational. -/
def pyFloat (s : String) : Option Rat := pyFloatCore (stripChars s.toList)

/-- Python `s or None` on a string: empty becomes NULL. -/
def blankNone (s : String) : Option String := if s = "" then none else some s

/-- `upload_file_to_blob(file)`: no file, empty filename, missing
connection string, or any backend exception all yield `None`;
otherwise the blob URL handed back by the SDK. -/
def upload_file_to_blob (env : BlobEnv) (file : Option UFile) : Option String :=
  match file with
  | none => none
  | some f =>
    if f.filename = "" then none
    else
      match env.connectionString with
      | none => none
      | some _ =>
        match env.backend with
        | .ok url => some url
        | .exn _ => none

/-- `can_edit_horse(horse)` with `current_user` passed explicitly
(`none` = unauthenticated). -/
def can_edit_horse (u : Option User) (horse : Horse) : Bool :=
  match u with
  | none => false
  | some u =>
    if u.role = "admin" then true
    else decide (horse.sellerId = some u.id)

/-- `Horse.query.get(horse_id)`: primary-key lookup. -/
def findHorse (db : DB) (hid : Nat) : Option Horse :=
  db.horses.find? (fun h => decide (h.id = hid))

/-- Number of Order rows whose horse_id is `hid`. -/
def ordersFor (db : DB) (hid : Nat) : Nat :=
  (db.orders.filter (fun o => decide (o.horseId = hid))).length

/-- A multipart listing form; `none` marks an absent field. -/
structure ListingForm where
  name : Option String
  breed : Option String
  age : Option String
  price : Option String
  description : Option String
  location : Option String
  image : Option UFile
deriving DecidableEq, Repr

/-- POST `/sell` for an authenticated user `u` (seller_required, field
presence check, int/float validation, optional upload, insert+commit). -/
def sell (u : User) (f : ListingForm) (env : BlobEnv) (db : DB) :
    Except AppError (DB × Nat) :=
  if u.role ≠ "seller" ∧ u.role ≠ "admin" then .error .forbidden
  else
    let name := pyStrip (f.name.getD "")
    let breed := pyStrip (f.breed.getD "")
    let age := pyStrip (f.age.getD "")
    let price := pyStrip (f.price.getD "")
    let description := pyStrip (f.description.getD "")
    let location := pyStrip (f.location.getD "")
    if name = "" ∨ breed = "" ∨ age = "" ∨ price = "" then
      .error (.validation "Name, breed, age and price are required.")
    else
      match pyInt age, pyFloat price with
      | some ageInt, some priceFloat =>
        let imageUrl := upload_file_to_blob env f.image
        let horse : Horse :=
          { id := db.nextHorseId, name := name, breed := breed, age := ageInt,
            price := priceFloat, description := blankNone description,
            location := blankNone location, status := "AVAILABLE",
            imageUrl := imageUrl, sellerId := some u.id }
        let db2 : DB :=
          { db with horses := horse :: db.horses, nextHorseId := db.nextHorseId + 1 }
        .ok (db2, db.nextHorseId)
      | _, _ =>
        .error (.validation "Age must be a number and price must be a valid number.")

/-- POST `/edit/<horse_id>` for an authenticated user `u`
(404 lookup, can_edit_horse gate, int/float re-validation with "0"
defaults, field rewrite, upload that only overwrites on success). -/
def edit (u : User) (hid : Nat) (f : ListingForm) (env : BlobEnv) (db : DB) :
    Except AppError DB :=
  match findHorse db hid with
  | none => .error .notFound
  | some horse =>
    if ¬ can_edit_horse (some u) horse then .error .forbidden
    else
      match pyInt (f.age.getD "0"), pyFloat (f.price.getD "0") with
      | some ageInt, some priceFloat =>
        let imageUrl :=
          match f.image with
          | some img =>
            if img.filename ≠ "" then
              match upload_file_to_blob env (some img) with
              | some url => some url
              | none => horse.imageUrl
            else horse.imageUrl
          | none => horse.imageUrl
        let horse2 : Horse :=
          { horse with
            name := pyStrip (f.name.getD ""),
            breed := pyStrip (f.breed.getD ""),
            age := ageInt, price := priceFloat,
            description := blankNone (pyStrip (f.description.getD "")),
            location := blankNone (pyStrip (f.location.getD "")),
            imageUrl := imageUrl }
        .ok { db with
              horses := db.horses.map (fun h => if h.id = horse.id then horse2 else h) }
      | _, _ => .error (.validation "Age and price must be valid numbers.")

/-- POST `/delete/<horse_id>` for an authenticated user `u`
(404 lookup, can_edit_horse gate, SOLD guard, row delete+commit). -/
def delete (u : User) (hid : Nat) (db : DB) : Except AppError DB :=
  match findHorse db hid with
  | none => .error .notFound
  | some horse =>
    if ¬ can_edit_horse (some u) horse then .error .forbidden
    else if horse.status = "SOLD" then
      .error (.domainConflict "You can\x27t delete a SOLD listing.")
    else
      .ok { db with horses := db.horses.filter (fun h => ¬ h.id = horse.id) }

structure CheckoutForm where
  full_name : Option String
  phone : Option String
  address : Option String
deriving DecidableEq, Repr

/-- POST `/checkout/<horse_id>` for an authenticated user `u`
(404 lookup, AVAILABLE guard, self-purchase guard, shipping-field
validation, then Order insert + status flip committed together). -/
def checkout (u : User) (hid : Nat) (f : CheckoutForm) (db : DB) :
    Except AppError (DB × Order) :=
  match findHorse db hid with
  | none => .error .notFound
  | some horse =>
    if horse.status ≠ "AVAILABLE" then
      .error (.domainConflict "This horse is not available.")
    else if horse.sellerId = some u.id then
      .error (.domainConflict "You can\x27t buy your own listing.")
    else
      let full_name := pyStrip (f.full_name.getD "")
      let phone := pyStrip (f.phone.getD "")
      let address := pyStrip (f.address.getD "")
      if full_name = "" ∨ address = "" then
        .error (.validation "Full name and address are required.")
      else
        let order : Order :=
          { id := db.nextOrderId, buyerId := u.id, horseId := horse.id,
            priceAtPurchase := horse.price, status := "PAID",
            fullName := full_name, phone := blankNone phone, address := address }
        let db2 : DB :=
          { db with
            horses := db.horses.map
              (fun h => if h.id = horse.id then { horse with status := "SOLD" } else h),
            orders := order :: db.orders,
            nextOrderId := db.nextOrderId + 1 }
        .ok (db2, order)

structure LoginForm where
  email : Option String
  password : Option String
deriving DecidableEq, Repr

/-- POST `/login`: email normalization, user lookup, password check via
the externally supplied hash verifier `checkPw`; both failure branches
flash the one generic message. -/
def login (f : LoginForm) (checkPw : String → String → Bool) (db : DB) :
    Except AppError User :=
  let email := pyLower (pyStrip (f.email.getD ""))
  let password := f.password.getD ""
  match db.users.find? (fun u => decide (u.email = email)) with
  | none => .error (.authError "Invalid email or password.")
  | some user =>
    if ¬ checkPw user.passwordHash password then
      .error (.authError "Invalid email or password.")
    else .ok user

/-- One committed mutating request, by any authenticated user. -/
inductive Step : DB → DB → Prop
  | sell (u : User) (f : ListingForm) (env : BlobEnv) (db db' : DB) (hid : Nat) :
      sell u f env db = .ok (db', hid) → Step db db'
  | edit (u : User) (hid : Nat) (f : ListingForm) (env : BlobEnv) (db db' : DB) :
      edit u hid f env db = .ok db' → Step db db'
  | del (u : User) (hid : Nat) (db db' : DB) :
      delete u hid db = .ok db' → Step db db'
  | checkout (u : User) (hid : Nat) (f : CheckoutForm) (db db' : DB) (ord : Order) :
      checkout u hid f db = .ok (db', ord) → Step db db'

/-- States reachable from the empty store by committed requests. -/
inductive Reachable : DB → Prop
  | init : Reachable DB.empty
  | step {db db' : DB} : Reachable db → Step db db' → Reachable db'

/-- The spec's core invariant: a listing is SOLD iff exactly one order
references it. -/
def SoldIffOrder (db : DB) : Prop :=
  ∀ h ∈ db.horses, (h.status = "SOLD" ↔ ordersFor db h.id = 1)

/-- Auxiliary inductive invariant carried through the step relation. -/
structure Inv (db : DB) : Prop where
  hid_lt : ∀ h ∈ db.horses, h.id < db.nextHorseId
  nodup : (db.horses.map Horse.id).Nodup
  orders_ref : ∀ o ∈ db.orders, ∃ h ∈ db.horses, h.id = o.horseId
  status_ok : ∀ h ∈ db.horses, h.status = "AVAILABLE" ∨ h.status = "SOLD"
  avail_none : ∀ h ∈ db.horses, h.status = "AVAILABLE" → ordersFor db h.id = 0
  sold_one : ∀ h ∈ db.horses, h.status = "SOLD" → ordersFor db h.id = 1

/-- The row the edit handler stores for the image: a fresh upload URL
when one came back, the previously stored URL otherwise. -/
def editImageUrl (horse : Horse) (f : ListingForm) (env : BlobEnv) : Option String :=
  match f.image with
  | some img =>
    if img.filename ≠ "" then
      match upload_file_to_blob env (some img) with
      | some url => some url
      | none => horse.imageUrl
    else horse.imageUrl
  | none => horse.imageUrl

/-- The listing row as rewritten by a committed edit. -/
def editedHorse (horse : Horse) (f : ListingForm) (env : BlobEnv)
    (a : Int) (p : Rat) : Horse :=
  { horse with
    name := pyStrip (f.name.getD ""), breed := pyStrip (f.breed.getD ""),
    age := a, price := p,
    description := blankNone (pyStrip (f.description.getD "")),
    location := blankNone (pyStrip (f.location.getD "")),
    imageUrl := editImageUrl horse f env }

/-! ### Sample data used by witness and counterexample theorems -/

def buyerA : User := ⟨1, "a@x.com", "hashA", "buyer"⟩

def sellerB : User := ⟨2, "b@x.com", "hashB", "seller"⟩

def thunderForm : ListingForm :=
  ⟨some "Thunder", some "Arabian", some "5", some "5000", none, none, none⟩

def envOff : BlobEnv := ⟨none, .exn "unreachable"⟩

def envUp : BlobEnv := ⟨some "cs", .ok "https://blob/img.png"⟩

def thunderHorse : Horse :=
  ⟨1, "Thunder", "Arabian", 5, 5000, none, none, "AVAILABLE", none, some 2⟩

def dbThunder : DB := ⟨[], [thunderHorse], [], 2, 1⟩

def shipForm : CheckoutForm := ⟨some "A One", none, some "1 Main St"⟩

def orderThunder : Order := ⟨1, 1, 1, 5000, "PAID", "A One", none, "1 Main St"⟩

def soldThunder : Horse :=
  ⟨1, "Thunder", "Arabian", 5, 5000, none, none, "SOLD", none, some 2⟩

def dbSold : DB := ⟨[], [soldThunder], [orderThunder], 2, 2⟩

def emptyForm : ListingForm := ⟨none, none, none, none, none, none, none⟩

def badAgeForm : ListingForm :=
  ⟨some "Thunder", some "Arabian", some "old", some "5000", none, none, none⟩

def imgForm : ListingForm :=
  ⟨some "Thunder", some "Arabian", some "5", some "5000", none, none, some ⟨"a.png"⟩⟩

/-! ### Basic lemmas about lookups and order counts -/

lemma findHorse_mem {db : DB} {hid : Nat} {h : Horse}
    (hf : findHorse db hid = some h) : h ∈ db.horses ∧ h.id = hid := by
  unfold findHorse at hf
  refine ⟨List.mem_of_find?_eq_some hf, ?_⟩
  have := List.find?_some hf
  simpa using this

lemma ordersFor_eq_zero {db : DB} {n : Nat} :
    ordersFor db n = 0 ↔ ∀ o ∈ db.orders, o.horseId ≠ n := by
  unfold ordersFor
  rw [List.length_eq_zero, List.filter_eq_nil_iff]
  simp

lemma find?_map_update {l : List Horse} {hid : Nat} {horse h2 : Horse}
    (hf : l.find? (fun h => decide (h.id = hid)) = some horse)
    (hh : h2.id = horse.id) :
    (l.map (fun h => if h.id = horse.id then h2 else h)).find?
      (fun h => decide (h.id = hid)) = some h2 := by
  have hhid : horse.id = hid := by simpa using List.find?_some hf
  induction l with
  | nil => simp at hf
  | cons a l ih =>
    by_cases ha : a.id = hid
    · rw [List.find?_cons_of_pos _ (by simpa using ha)] at hf
      have hah : a = horse := by injection hf
      subst hah
      simp only [List.map_cons, if_pos rfl]
      rw [List.find?_cons_of_pos _ (by simp [hh, hhid])]
      simp
    · rw [List.find?_cons_of_neg _ (by simpa using ha)] at hf
      simp only [List.map_cons]
      rw [if_neg (fun e => ha (e.trans hhid))]
      rw [List.find?_cons_of_neg _ (by simpa using ha)]
      exact ih hf

lemma map_update_ids (l : List Horse) (horse h2 : Horse) (hh : h2.id = horse.id) :
    (l.map (fun h => if h.id = horse.id then h2 else h)).map Horse.id
      = l.map Horse.id := by
  rw [List.map_map]
  congr 1
  funext h
  by_cases hc : h.id = horse.id
  · simp [hc, hh, Function.comp]
  · simp [hc, Function.comp]

/-! ### Inversion lemmas: the shape of each committed request -/

lemma sell_ok_shape {u : User} {f : ListingForm} {env : BlobEnv} {db db2 : DB} {hid : Nat}
    (hok : sell u f env db = .ok (db2, hid)) :
    ∃ nh : Horse, nh.id = db.nextHorseId ∧ nh.status = "AVAILABLE" ∧
      db2 = { db with horses := nh :: db.horses, nextHorseId := db.nextHorseId + 1 } := by
  simp only [sell] at hok
  by_cases h1 : u.role ≠ "seller" ∧ u.role ≠ "admin"
  · simp [h1] at hok
  · rw [if_neg h1] at hok
    by_cases h2 : pyStrip (f.name.getD "") = "" ∨ pyStrip (f.breed.getD "") = ""
        ∨ pyStrip (f.age.getD "") = "" ∨ pyStrip (f.price.getD "") = ""
    · simp [h2] at hok
    · rw [if_neg h2] at hok
      cases hia : pyInt (pyStrip (f.age.getD "")) with
      | none =>
        rw [hia] at hok
        cases hfp : pyFloat (pyStrip (f.price.getD "")) <;> rw [hfp] at hok <;> simp at hok
      | some a =>
        rw [hia] at hok
        cases hfp : pyFloat (pyStrip (f.price.getD "")) with
        | none => rw [hfp] at hok; simp at hok
        | some p =>
          rw [hfp] at hok
          simp only [Except.ok.injEq, Prod.mk.injEq] at hok
          obtain ⟨hdb, -⟩ := hok
          exact ⟨_, rfl, rfl, hdb.symm⟩

lemma edit_ok_shape {u : User} {hid : Nat} {f : ListingForm} {env : BlobEnv} {db db2 : DB}
    (hok : edit u hid f env db = .ok db2) :
    ∃ horse horse2 : Horse, findHorse db hid = some horse ∧ horse2.id = horse.id ∧
      horse2.status = horse.status ∧
      db2 = { db with
        horses := db.horses.map (fun h => if h.id = horse.id then horse2 else h) } := by
  cases hfind : findHorse db hid with
  | none => simp [edit, hfind] at hok
  | some horse =>
    simp only [edit, hfind] at hok
    by_cases hce : can_edit_horse (some u) horse
    · rw [if_neg (by simpa using hce)] at hok
      cases hia : pyInt (f.age.getD "0") with
      | none =>
        cases hfp : pyFloat (f.price.getD "0") <;> simp [hia, hfp] at hok
      | some a =>
        cases hfp : pyFloat (f.price.getD "0") with
        | none => simp [hia, hfp] at hok
        | some p =>
          simp only [hia, hfp, Except.ok.injEq] at hok
          refine ⟨horse, _, rfl, ?_, ?_, hok.symm⟩ <;> rfl
    · rw [if_pos (by simpa using hce)] at hok
      simp at hok

lemma delete_ok_shape {u : User} {hid : Nat} {db db2 : DB}
    (hok : delete u hid db = .ok db2) :
    ∃ horse : Horse, findHorse db hid = some horse ∧ horse.status ≠ "SOLD" ∧
      db2 = { db with horses := db.horses.filter (fun h => ¬ h.id = horse.id) } := by
  cases hfind : findHorse db hid with
  | none => simp [delete, hfind] at hok
  | some horse =>
    simp only [delete, hfind] at hok
    by_cases hce : can_edit_horse (some u) horse
    · rw [if_neg (by simpa using hce)] at hok
      by_cases hs : horse.status = "SOLD"
      · rw [if_pos hs] at hok; simp at hok
      · rw [if_neg hs] at hok
        simp only [Except.ok.injEq] at hok
        exact ⟨horse, rfl, hs, hok.symm⟩
    · rw [if_pos (by simpa using hce)] at hok
      simp at hok

lemma checkout_ok_shape {u : User} {hid : Nat} {f : CheckoutForm} {db db2 : DB} {ord : Order}
    (hok : checkout u hid f db = .ok (db2, ord)) :
    ∃ horse : Horse, findHorse db hid = some horse ∧ horse.status = "AVAILABLE" ∧
      horse.sellerId ≠ some u.id ∧ ord.horseId = horse.id ∧
      db2 = { db with
        horses := db.horses.map
          (fun h => if h.id = horse.id then { horse with status := "SOLD" } else h),
        orders := ord :: db.orders,
        nextOrderId := db.nextOrderId + 1 } := by
  cases hfind : findHorse db hid with
  | none => simp [checkout, hfind] at hok
  | some horse =>
    simp only [checkout, hfind] at hok
    by_cases h1 : horse.status = "AVAILABLE"
    · rw [if_neg (by simp [h1])] at hok
      by_cases h2 : horse.sellerId = some u.id
      · rw [if_pos h2] at hok; simp at hok
      · rw [if_neg h2] at hok
        by_cases h3 : pyStrip (f.full_name.getD "") = "" ∨ pyStrip (f.address.getD "") = ""
        · rw [if_pos h3] at hok; simp at hok
        · rw [if_neg h3] at hok
          simp only [Except.ok.injEq, Prod.mk.injEq] at hok
          obtain ⟨hdb, hord⟩ := hok
          subst hord
          exact ⟨horse, rfl, h1, h2, rfl, hdb.symm⟩
    · rw [if_pos h1] at hok; simp at hok

/-- A committed edit rewrites exactly the found row, with the parsed
numbers and the image-URL policy of `editImageUrl`. -/
lemma edit_ok_of_valid {u : User} {hid : Nat} {f : ListingForm} {env : BlobEnv} {db : DB}
    {horse : Horse} {a : Int} {p : Rat}
    (hfind : findHorse db hid = some horse)
    (hce : can_edit_horse (some u) horse = true)
    (hia : pyInt (f.age.getD "0") = some a)
    (hfp : pyFloat (f.price.getD "0") = some p) :
    edit u hid f env db = .ok { db with
      horses := db.horses.map
        (fun h => if h.id = horse.id then editedHorse horse f env a p else h) } := by
  simp only [edit, hfind, hia, hfp]
  rw [if_neg (by simp [hce])]
  rfl

/-! ### C7: upload failure degrades to no media -/

/-- C7: `upload_file_to_blob` returns `none` (no media, not an error)
when the file is absent, the filename is empty, the storage connection
string is unconfigured, or the backend raises; and a valid `/sell` whose
upload returns `none` still succeeds, storing the listing with an absent
image URL. -/
theorem upload_failure_no_media (env : BlobEnv) :
    upload_file_to_blob env none = none
    ∧ (∀ fl : UFile, fl.filename = "" → upload_file_to_blob env (some fl) = none)
    ∧ (env.connectionString = none →
        ∀ fl : UFile, upload_file_to_blob env (some fl) = none)
    ∧ (∀ m : String, env.backend = .exn m →
        ∀ fl : UFile, upload_file_to_blob env (some fl) = none)
    ∧ (∀ (u : User) (f : ListingForm) (db : DB) (a : Int) (p : Rat),
        u.role = "seller" →
        pyStrip (f.name.getD "") ≠ "" → pyStrip (f.breed.getD "") ≠ "" →
        pyStrip (f.age.getD "") ≠ "" → pyStrip (f.price.getD "") ≠ "" →
        pyInt (pyStrip (f.age.getD "")) = some a →
        pyFloat (pyStrip (f.price.getD "")) = some p →
        upload_file_to_blob env f.image = none →
        ∃ db2 : DB, sell u f env db = .ok (db2, db.nextHorseId) ∧
          (findHorse db2 db.nextHorseId).map Horse.imageUrl = some none) := by
  refine ⟨rfl, ?_, ?_, ?_, ?_⟩
  · intro fl hfl
    simp [upload_file_to_blob, hfl]
  · intro hcs fl
    unfold upload_file_to_blob
    rw [hcs]
    by_cases hf : fl.filename = "" <;> simp [hf]
  · intro m hb fl
    unfold upload_file_to_blob
    rw [hb]
    by_cases hf : fl.filename = "" <;> simp [hf]
    cases env.connectionString <;> simp
  · intro u f db a p hrole hn hb ha hp hia hfp hup
    let horse1 : Horse :=
      { id := db.nextHorseId, name := pyStrip (f.name.getD ""),
        breed := pyStrip (f.breed.getD ""), age := a, price := p,
        description := blankNone (pyStrip (f.description.getD "")),
        location := blankNone (pyStrip (f.location.getD "")),
        status := "AVAILABLE", imageUrl := upload_file_to_blob env f.image,
        sellerId := some u.id }
    let db2 : DB :=
      { db with horses := horse1 :: db.horses, nextHorseId := db.nextHorseId + 1 }
    refine ⟨db2, ?_, ?_⟩
    · simp only [sell, hia, hfp]
      rw [if_neg (by simp [hrole]), if_neg (by simp [hn, hb, ha, hp])]
    · simp [findHorse, List.find?, hup]

/-- C7 witness at a concrete input: backend down, connection string
absent, valid Thunder form. -/
theorem upload_failure_no_media_witness :
    upload_file_to_blob envOff none = none
    ∧ (∃ db2 : DB, sell sellerB thunderForm envOff DB.empty = .ok (db2, DB.empty.nextHorseId) ∧
        (findHorse db2 DB.empty.nextHorseId).map Horse.imageUrl = some none) := by
  have h := upload_failure_no_media envOff
  exact ⟨h.1, h.2.2.2.2 sellerB thunderForm DB.empty 5 5000 (by decide)
    (by decide) (by decide) (by decide) (by decide) (by decide) (by decide) rfl⟩

/-! ### C8: the can_edit_horse authorization predicate -/

/-- C8: `can_edit_horse` is true exactly for an authenticated admin or
the listing seller; it is false for every unauthenticated caller, and a
buyer who owns no listing fails it for every listing in the store. -/
theorem can_edit_horse_characterization :
    (∀ h : Horse, can_edit_horse none h = false)
    ∧ (∀ (u : User) (h : Horse),
        can_edit_horse (some u) h = true ↔ (u.role = "admin" ∨ h.sellerId = some u.id))
    ∧ (∀ (u : User) (db : DB), u.role = "buyer" →
        (∀ h ∈ db.horses, h.sellerId ≠ some u.id) →
        ∀ h ∈ db.horses, can_edit_horse (some u) h = false) := by
  refine ⟨fun h => rfl, ?_, ?_⟩
  · intro u h
    simp only [can_edit_horse]
    by_cases hadm : u.role = "admin" <;> simp [hadm]
  · intro u db hrole hown h hmem
    simp only [can_edit_horse]
    rw [if_neg (by simp [hrole])]
    simpa using hown h hmem

/-- C8 witness: unauthenticated caller and a buyer owning no listing
both fail the predicate on the Thunder listing; its seller passes it. -/
theorem can_edit_horse_characterization_witness :
    can_edit_horse none thunderHorse = false
    ∧ can_edit_horse (some buyerA) thunderHorse = false
    ∧ can_edit_horse (some sellerB) thunderHorse = true := by
  refine ⟨can_edit_horse_characterization.1 thunderHorse, ?_, ?_⟩
  · exact can_edit_horse_characterization.2.2 buyerA dbThunder rfl
      (by intro h hmem; simp [dbThunder] at hmem; simp [hmem, thunderHorse, buyerA])
      thunderHorse (by simp [dbThunder])
  · exact (can_edit_horse_characterization.2.1 sellerB thunderHorse).mpr
      (Or.inr (by simp [thunderHorse, sellerB]))

/-! ### C9: login failure does not reveal account existence -/

/-- C9: a login whose email matches no user and a login whose email
matches a user but whose password fails verification produce the
identical failure result, the single generic message. -/
theorem login_uniform_failure
    (db1 db2 : DB) (f1 f2 : LoginForm) (cp1 cp2 : String → String → Bool)
    (h1 : db1.users.find?
      (fun u => decide (u.email = pyLower (pyStrip (f1.email.getD "")))) = none)
    (h2 : ∃ u, db2.users.find?
        (fun u2 => decide (u2.email = pyLower (pyStrip (f2.email.getD "")))) = some u
      ∧ cp2 u.passwordHash (f2.password.getD "") = false) :
    login f1 cp1 db1 = .error (.authError "Invalid email or password.")
    ∧ login f2 cp2 db2 = .error (.authError "Invalid email or password.")
    ∧ login f1 cp1 db1 = login f2 cp2 db2 := by
  obtain ⟨u, hfind, hcp⟩ := h2
  have e1 : login f1 cp1 db1 = .error (.authError "Invalid email or password.") := by
    simp only [login]
    rw [h1]
  have e2 : login f2 cp2 db2 = .error (.authError "Invalid email or password.") := by
    simp only [login]
    rw [hfind]
    simp [hcp]
  exact ⟨e1, e2, by rw [e1, e2]⟩

/-- C9 witness: unknown email in an empty store versus seller B with a
rejected password give the same generic failure. -/
theorem login_uniform_failure_witness :
    login ⟨some "a@x.com", some "pw"⟩ (fun _ _ => false) DB.empty
        = .error (.authError "Invalid email or password.")
    ∧ login ⟨some "b@x.com", some "pw"⟩ (fun _ _ => false) ⟨[sellerB], [], [], 1, 1⟩
        = .error (.authError "Invalid email or password.")
    ∧ login ⟨some "a@x.com", some "pw"⟩ (fun _ _ => false) DB.empty
        = login ⟨some "b@x.com", some "pw"⟩ (fun _ _ => false) ⟨[sellerB], [], [], 1, 1⟩ :=
  login_uniform_failure DB.empty ⟨[sellerB], [], [], 1, 1⟩
    ⟨some "a@x.com", some "pw"⟩ ⟨some "b@x.com", some "pw"⟩
    (fun _ _ => false) (fun _ _ => false) (by decide) ⟨sellerB, by decide, rfl⟩

/-! ### C1: checkout creates the order and sells the listing atomically -/

/-- C1: for an AVAILABLE listing whose seller is not the buyer, a
checkout POST with non-empty full name and address succeeds, and the one
committed successor state both holds exactly one new Order — PAID, at
the listing's current price — and shows the listing SOLD; both writes
are fields of the single returned `db2`, the embedding of one
transaction, so neither persists without the other. -/
theorem checkout_atomic_success (u : User) (hid : Nat) (f : CheckoutForm)
    (db : DB) (horse : Horse)
    (hfind : findHorse db hid = some horse)
    (havail : horse.status = "AVAILABLE")
    (hself : horse.sellerId ≠ some u.id)
    (hname : pyStrip (f.full_name.getD "") ≠ "")
    (haddr : pyStrip (f.address.getD "") ≠ "") :
    ∃ db2 ord, checkout u hid f db = .ok (db2, ord)
      ∧ ord.priceAtPurchase = horse.price
      ∧ ord.status = "PAID"
      ∧ ord.horseId = horse.id
      ∧ ord.buyerId = u.id
      ∧ db2.orders = ord :: db.orders
      ∧ findHorse db2 hid = some { horse with status := "SOLD" } := by
  let ord : Order :=
    { id := db.nextOrderId, buyerId := u.id, horseId := horse.id,
      priceAtPurchase := horse.price, status := "PAID",
      fullName := pyStrip (f.full_name.getD ""),
      phone := blankNone (pyStrip (f.phone.getD "")),
      address := pyStrip (f.address.getD "") }
  let db2 : DB :=
    { db with
      horses := db.horses.map
        (fun h => if h.id = horse.id then { horse with status := "SOLD" } else h),
      orders := ord :: db.orders, nextOrderId := db.nextOrderId + 1 }
  refine ⟨db2, ord, ?_, rfl, rfl, rfl, rfl, rfl, ?_⟩
  · simp only [checkout, hfind]
    rw [if_neg (by simp [havail]), if_neg hself, if_neg (by simp [hname, haddr])]
  · exact find?_map_update hfind rfl

/-- C1 witness: buyer A checks out the Thunder listing priced 5000. -/
theorem checkout_atomic_success_witness :
    ∃ db2 ord, checkout buyerA 1 shipForm dbThunder = .ok (db2, ord)
      ∧ ord.priceAtPurchase = thunderHorse.price
      ∧ ord.status = "PAID"
      ∧ ord.horseId = thunderHorse.id
      ∧ ord.buyerId = buyerA.id
      ∧ db2.orders = ord :: dbThunder.orders
      ∧ findHorse db2 1 = some { thunderHorse with status := "SOLD" } :=
  checkout_atomic_success buyerA 1 shipForm dbThunder thunderHorse
    (by decide) (by decide) (by decide) (by decide) (by decide)

/-! ### C3: checkout rejections -/

/-- After any committed checkout the listing reads back SOLD. -/
lemma checkout_sold_after {u : User} {hid : Nat} {f : CheckoutForm}
    {db db2 : DB} {ord : Order}
    (hok : checkout u hid f db = .ok (db2, ord)) :
    ∃ horse2 : Horse, findHorse db2 hid = some horse2 ∧ horse2.status = "SOLD" := by
  obtain ⟨horse, hf, -, -, -, rfl⟩ := checkout_ok_shape hok
  exact ⟨{ horse with status := "SOLD" }, find?_map_update hf rfl, rfl⟩

/-- C3: checkout fails with a domain-conflict error whenever the listing
is not AVAILABLE or the buyer is its own seller (the code tests
availability first), and once a checkout commits, every later checkout
of that listing by any buyer fails the same way.  An error result is a
redirect before commit: no Order row is created and the listing row is
untouched. -/
theorem checkout_rejects_unavailable_or_self (u : User) (hid : Nat) (f : CheckoutForm)
    (db : DB) (horse : Horse) (hfind : findHorse db hid = some horse) :
    (horse.status ≠ "AVAILABLE" →
      checkout u hid f db = .error (.domainConflict "This horse is not available."))
    ∧ (horse.status = "AVAILABLE" → horse.sellerId = some u.id →
      checkout u hid f db = .error (.domainConflict "You can\x27t buy your own listing."))
    ∧ (∀ (db2 : DB) (ord : Order), checkout u hid f db = .ok (db2, ord) →
      ∀ (u2 : User) (f2 : CheckoutForm),
        checkout u2 hid f2 db2 = .error (.domainConflict "This horse is not available.")) := by
  refine ⟨?_, ?_, ?_⟩
  · intro hna
    simp only [checkout, hfind]
    rw [if_pos hna]
  · intro hA hself
    simp only [checkout, hfind]
    rw [if_neg (by simp [hA]), if_pos hself]
  · intro db2 ord hok u2 f2
    obtain ⟨horse2, hf2, hs2⟩ := checkout_sold_after hok
    simp only [checkout, hf2]
    rw [if_pos (by simp [hs2])]

/-- C3 witness: checkout of the sold Thunder listing fails for buyer A,
and seller B cannot buy their own AVAILABLE listing. -/
theorem checkout_rejects_witness :
    checkout buyerA 1 shipForm dbSold
      = .error (.domainConflict "This horse is not available.")
    ∧ checkout sellerB 1 shipForm dbThunder
      = .error (.domainConflict "You can\x27t buy your own listing.") :=
  ⟨(checkout_rejects_unavailable_or_self buyerA 1 shipForm dbSold soldThunder
      (by decide)).1 (by decide),
   (checkout_rejects_unavailable_or_self sellerB 1 shipForm dbThunder thunderHorse
      (by decide)).2.1 (by decide) (by decide)⟩

/-! ### C4: delete listing -/

/-- C4: delete 404s when the id is unknown, 403s when `can_edit_horse`
fails, refuses with a domain error when the listing is SOLD (an error is
a redirect before commit, so the listing and its order rows are
untouched), and otherwise commits the removal of exactly the rows with
that listing id. -/
theorem delete_spec (u : User) (hid : Nat) (db : DB) :
    (findHorse db hid = none → delete u hid db = .error .notFound)
    ∧ (∀ horse : Horse, findHorse db hid = some horse →
        (can_edit_horse (some u) horse = false → delete u hid db = .error .forbidden)
        ∧ (can_edit_horse (some u) horse = true → horse.status = "SOLD" →
            delete u hid db = .error (.domainConflict "You can\x27t delete a SOLD listing."))
        ∧ (can_edit_horse (some u) horse = true → horse.status ≠ "SOLD" →
            delete u hid db
              = .ok { db with
                  horses := db.horses.filter (fun h => ¬ h.id = horse.id) })) := by
  refine ⟨?_, ?_⟩
  · intro h
    simp [delete, h]
  · intro horse hf
    refine ⟨?_, ?_, ?_⟩
    · intro hce
      simp only [delete, hf]
      rw [if_pos (by simp [hce])]
    · intro hce hs
      simp only [delete, hf]
      rw [if_neg (by simp [hce]), if_pos hs]
    · intro hce hs
      simp only [delete, hf]
      rw [if_neg (by simp [hce]), if_neg hs]

/-- C4 witness: the four delete outcomes on concrete stores. -/
theorem delete_spec_witness :
    delete sellerB 5 dbThunder = .error .notFound
    ∧ delete buyerA 1 dbThunder = .error .forbidden
    ∧ delete sellerB 1 dbSold = .error (.domainConflict "You can\x27t delete a SOLD listing.")
    ∧ delete sellerB 1 dbThunder = .ok ⟨[], [], [], 2, 1⟩ :=
  ⟨(delete_spec sellerB 5 dbThunder).1 (by decide),
   ((delete_spec buyerA 1 dbThunder).2 thunderHorse (by decide)).1 (by decide),
   ((delete_spec sellerB 1 dbSold).2 soldThunder (by decide)).2.1 (by decide) (by decide),
   (((delete_spec sellerB 1 dbThunder).2 thunderHorse (by decide)).2.2 (by decide)
      (by decide)).trans (by decide)⟩

/-! ### C5: what the edit path actually re-validates -/

/-- C5 counterexample: the edit handler applies no required-field
validation — an authorized edit POST whose name, breed, age and price
fields are all absent is not rejected; it commits, storing defaults,
contradicting the claim that edit requires those fields to be present. -/
theorem edit_no_presence_validation_counterexample :
    edit sellerB 1 emptyForm envOff dbThunder
      = .ok ⟨[], [⟨1, "", "", 0, 0, none, none, "AVAILABLE", none, some 2⟩], [], 2, 1⟩
    ∧ ∀ msg, edit sellerB 1 emptyForm envOff dbThunder ≠ .error (.validation msg) := by
  have h1 : edit sellerB 1 emptyForm envOff dbThunder
      = .ok ⟨[], [⟨1, "", "", 0, 0, none, none, "AVAILABLE", none, some 2⟩], [], 2, 1⟩ := by
    decide
  exact ⟨h1, fun msg hmsg => Except.noConfusion (h1.symm.trans hmsg)⟩

/-- C5 amended: the edit path re-validates only parseability, not
presence: with the handler's "0" defaults substituted for absent
fields, whenever the submitted age does not parse as an integer or the
submitted price does not parse as a number, the update is rejected with
the validation error, and the rejection is a redirect before commit, so
the listing is unchanged. -/
theorem edit_rejects_unparsable_numbers (u : User) (hid : Nat) (f : ListingForm)
    (env : BlobEnv) (db : DB) (horse : Horse)
    (hfind : findHorse db hid = some horse)
    (hce : can_edit_horse (some u) horse = true)
    (hbad : pyInt (f.age.getD "0") = none ∨ pyFloat (f.price.getD "0") = none) :
    edit u hid f env db = .error (.validation "Age and price must be valid numbers.") := by
  simp only [edit, hfind]
  rw [if_neg (by simp [hce])]
  rcases hbad with hl | hr
  · cases hq : pyFloat (f.price.getD "0") <;> simp [hl, hq]
  · cases hq : pyInt (f.age.getD "0") <;> simp [hq, hr]

/-- C5 witness: an age field that is not a number is rejected. -/
theorem edit_rejects_unparsable_numbers_witness :
    edit sellerB 1 badAgeForm envOff dbThunder
      = .error (.validation "Age and price must be valid numbers.") :=
  edit_rejects_unparsable_numbers sellerB 1 badAgeForm envOff dbThunder thunderHorse
    (by decide) (by decide) (Or.inl (by decide))

/-! ### C6: a failed re-upload never clobbers the stored image URL -/

/-- A committed valid edit stores exactly the `editedHorse` row. -/
lemma findHorse_after_edit (env : BlobEnv) {u : User} {hid : Nat} {f : ListingForm}
    {db : DB} {horse : Horse} {a : Int} {p : Rat}
    (hfind : findHorse db hid = some horse)
    (hce : can_edit_horse (some u) horse = true)
    (hia : pyInt (f.age.getD "0") = some a)
    (hfp : pyFloat (f.price.getD "0") = some p) :
    ∃ db2, edit u hid f env db = .ok db2
      ∧ findHorse db2 hid = some (editedHorse horse f env a p) := by
  refine ⟨_, edit_ok_of_valid hfind hce hia hfp, ?_⟩
  exact find?_map_update hfind rfl

/-- C6: when the edit form carries a new image file but the upload
returns no URL, the committed row keeps the previously stored image
URL; the stored URL is replaced exactly when the upload returns one. -/
theorem edit_failed_upload_keeps_image (u : User) (hid : Nat) (f : ListingForm)
    (env : BlobEnv) (db : DB) (horse : Horse) (img : UFile) (a : Int) (p : Rat)
    (hfind : findHorse db hid = some horse)
    (hce : can_edit_horse (some u) horse = true)
    (himg : f.image = some img)
    (hfn : img.filename ≠ "")
    (hia : pyInt (f.age.getD "0") = some a)
    (hfp : pyFloat (f.price.getD "0") = some p) :
    (upload_file_to_blob env (some img) = none →
      ∃ db2, edit u hid f env db = .ok db2
        ∧ (findHorse db2 hid).map Horse.imageUrl = some horse.imageUrl)
    ∧ (∀ url, upload_file_to_blob env (some img) = some url →
      ∃ db2, edit u hid f env db = .ok db2
        ∧ (findHorse db2 hid).map Horse.imageUrl = some (some url)) := by
  constructor
  · intro hup
    obtain ⟨db2, hok, hf2⟩ := findHorse_after_edit env hfind hce hia hfp
    refine ⟨db2, hok, ?_⟩
    rw [hf2]
    simp [editedHorse, editImageUrl, himg, hfn, hup]
  · intro url hup
    obtain ⟨db2, hok, hf2⟩ := findHorse_after_edit env hfind hce hia hfp
    refine ⟨db2, hok, ?_⟩
    rw [hf2]
    simp [editedHorse, editImageUrl, himg, hfn, hup]

/-- C6 witness: with the blob store unconfigured the Thunder listing
keeps its old (absent) URL; with a working backend the URL is
replaced. -/
theorem edit_failed_upload_keeps_image_witness :
    (∃ db2, edit sellerB 1 imgForm envOff dbThunder = .ok db2
      ∧ (findHorse db2 1).map Horse.imageUrl = some thunderHorse.imageUrl)
    ∧ (∃ db2, edit sellerB 1 imgForm envUp dbThunder = .ok db2
      ∧ (findHorse db2 1).map Horse.imageUrl = some (some "https://blob/img.png")) :=
  ⟨(edit_failed_upload_keeps_image sellerB 1 imgForm envOff dbThunder thunderHorse
      ⟨"a.png"⟩ 5 5000 (by decide) (by decide) rfl (by decide) (by decide) (by decide)).1
      (by decide),
   (edit_failed_upload_keeps_image sellerB 1 imgForm envUp dbThunder thunderHorse
      ⟨"a.png"⟩ 5 5000 (by decide) (by decide) rfl (by decide) (by decide) (by decide)).2
      "https://blob/img.png" (by decide)⟩

/-! ### C10: absent edit fields are defaulted, never rejected -/

/-- C10: an authorized edit POST with absent name, breed, age, price
and image fields commits successfully, storing empty strings for name
and breed, 0 for age, 0.0 for price, and keeping the old image URL —
no required-field validation runs on the edit path. -/
theorem edit_absent_fields_default (u : User) (hid : Nat) (f : ListingForm)
    (env : BlobEnv) (db : DB) (horse : Horse)
    (hfind : findHorse db hid = some horse)
    (hce : can_edit_horse (some u) horse = true)
    (hn : f.name = none) (hb : f.breed = none) (ha : f.age = none)
    (hp : f.price = none) (hi : f.image = none) :
    ∃ db2, edit u hid f env db = .ok db2
      ∧ findHorse db2 hid = some
        { horse with
          name := "", breed := "", age := 0, price := 0,
          description := blankNone (pyStrip (f.description.getD "")),
          location := blankNone (pyStrip (f.location.getD "")),
          imageUrl := horse.imageUrl } := by
  have hia : pyInt (f.age.getD "0") = some 0 := by rw [ha]; decide
  have hfp : pyFloat (f.price.getD "0") = some 0 := by rw [hp]; decide
  have hps : pyStrip "" = "" := by decide
  have he : editedHorse horse f env 0 0
      = { horse with
          name := "", breed := "", age := 0, price := 0,
          description := blankNone (pyStrip (f.description.getD "")),
          location := blankNone (pyStrip (f.location.getD "")),
          imageUrl := horse.imageUrl } := by
    simp [editedHorse, editImageUrl, hn, hb, hi, hps]
  obtain ⟨db2, hok, hf2⟩ := findHorse_after_edit env hfind hce hia hfp
  exact ⟨db2, hok, by rw [hf2, he]⟩

/-- C10 witness: the all-absent edit form on the Thunder listing. -/
theorem edit_absent_fields_default_witness :
    ∃ db2, edit sellerB 1 emptyForm envOff dbThunder = .ok db2
      ∧ findHorse db2 1 = some ⟨1, "", "", 0, 0, none, none, "AVAILABLE", none, some 2⟩ := by
  obtain ⟨db2, hok, hf2⟩ := edit_absent_fields_default sellerB 1 emptyForm envOff dbThunder
    thunderHorse (by decide) (by decide) rfl rfl rfl rfl rfl
  exact ⟨db2, hok, hf2.trans (by decide)⟩

/-! ### C2: preservation of the SOLD-iff-one-order invariant -/

lemma length_filter_cons {α : Type} (p : α → Bool) (a : α) (l : List α) :
    (List.filter p (a :: l)).length
      = (if p a then 1 else 0) + (List.filter p l).length := by
  rw [List.filter_cons]
  by_cases h : p a <;> simp [h, Nat.add_comm]

lemma inv_empty : Inv DB.empty := by
  constructor <;> simp [DB.empty, ordersFor]

lemma inv_sell {u : User} {f : ListingForm} {env : BlobEnv} {db db2 : DB} {hid : Nat}
    (hinv : Inv db) (hok : sell u f env db = .ok (db2, hid)) : Inv db2 := by
  obtain ⟨nh, hnid, hnst, rfl⟩ := sell_ok_shape hok
  have hofresh : ∀ o ∈ db.orders, o.horseId ≠ db.nextHorseId := by
    intro o ho he
    obtain ⟨h, hh, hhe⟩ := hinv.orders_ref o ho
    have := hinv.hid_lt h hh
    omega
  constructor
  · intro h hmem
    rcases List.mem_cons.mp hmem with rfl | hm
    · show h.id < db.nextHorseId + 1
      omega
    · have := hinv.hid_lt h hm
      show h.id < db.nextHorseId + 1
      omega
  · show ((nh :: db.horses).map Horse.id).Nodup
    rw [List.map_cons, List.nodup_cons]
    refine ⟨?_, hinv.nodup⟩
    intro hmem
    obtain ⟨h, hh, hhe⟩ := List.mem_map.mp hmem
    have h1 := hinv.hid_lt h hh
    have h2 : h.id = db.nextHorseId := hhe.trans hnid
    omega
  · intro o ho
    obtain ⟨h, hh, hhe⟩ := hinv.orders_ref o ho
    exact ⟨h, List.mem_cons_of_mem _ hh, hhe⟩
  · intro h hmem
    rcases List.mem_cons.mp hmem with rfl | hm
    · exact Or.inl hnst
    · exact hinv.status_ok h hm
  · intro h hmem hA
    rcases List.mem_cons.mp hmem with rfl | hm
    · apply ordersFor_eq_zero.mpr
      intro o ho he
      exact hofresh o ho (by rw [he, hnid])
    · exact hinv.avail_none h hm hA
  · intro h hmem hS
    rcases List.mem_cons.mp hmem with rfl | hm
    · exact absurd (hnst.symm.trans hS) (by decide)
    · exact hinv.sold_one h hm hS

lemma inv_edit {u : User} {hid : Nat} {f : ListingForm} {env : BlobEnv} {db db2 : DB}
    (hinv : Inv db) (hok : edit u hid f env db = .ok db2) : Inv db2 := by
  obtain ⟨horse, horse2, hfind, hid2, hst2, rfl⟩ := edit_ok_shape hok
  obtain ⟨hmemh, hidh⟩ := findHorse_mem hfind
  constructor
  · intro h hmem
    obtain ⟨h0, hh0, rfl⟩ := List.mem_map.mp hmem
    by_cases hc : h0.id = horse.id
    · show (if h0.id = horse.id then horse2 else h0).id < db.nextHorseId
      rw [if_pos hc, hid2, ← hc]
      exact hinv.hid_lt h0 hh0
    · show (if h0.id = horse.id then horse2 else h0).id < db.nextHorseId
      rw [if_neg hc]
      exact hinv.hid_lt h0 hh0
  · show ((db.horses.map _).map Horse.id).Nodup
    rw [map_update_ids _ _ _ hid2]
    exact hinv.nodup
  · intro o ho
    obtain ⟨h, hh, hhe⟩ := hinv.orders_ref o ho
    refine ⟨if h.id = horse.id then horse2 else h, List.mem_map.mpr ⟨h, hh, rfl⟩, ?_⟩
    by_cases hc : h.id = horse.id
    · rw [if_pos hc, hid2, ← hc]
      exact hhe
    · rw [if_neg hc]
      exact hhe
  · intro h hmem
    obtain ⟨h0, hh0, rfl⟩ := List.mem_map.mp hmem
    by_cases hc : h0.id = horse.id
    · simp only [if_pos hc, hst2]
      exact hinv.status_ok horse hmemh
    · simp only [if_neg hc]
      exact hinv.status_ok h0 hh0
  · intro h hmem hA
    obtain ⟨h0, hh0, rfl⟩ := List.mem_map.mp hmem
    by_cases hc : h0.id = horse.id
    · simp only [if_pos hc] at hA ⊢
      rw [hid2]
      exact hinv.avail_none horse hmemh (hst2.symm.trans hA)
    · simp only [if_neg hc] at hA ⊢
      exact hinv.avail_none h0 hh0 hA
  · intro h hmem hS
    obtain ⟨h0, hh0, rfl⟩ := List.mem_map.mp hmem
    by_cases hc : h0.id = horse.id
    · simp only [if_pos hc] at hS ⊢
      rw [hid2]
      exact hinv.sold_one horse hmemh (hst2.symm.trans hS)
    · simp only [if_neg hc] at hS ⊢
      exact hinv.sold_one h0 hh0 hS

lemma inv_delete {u : User} {hid : Nat} {db db2 : DB}
    (hinv : Inv db) (hok : delete u hid db = .ok db2) : Inv db2 := by
  obtain ⟨horse, hfind, hns, rfl⟩ := delete_ok_shape hok
  obtain ⟨hmemh, hidh⟩ := findHorse_mem hfind
  have hA : horse.status = "AVAILABLE" := by
    rcases hinv.status_ok horse hmemh with h | h
    · exact h
    · exact absurd h hns
  have hcount0 := hinv.avail_none horse hmemh hA
  have hno : ∀ o ∈ db.orders, o.horseId ≠ horse.id := ordersFor_eq_zero.mp hcount0
  constructor
  · intro h hmem
    exact hinv.hid_lt h (List.mem_of_mem_filter hmem)
  · exact List.Nodup.sublist ((List.filter_sublist _).map Horse.id) hinv.nodup
  · intro o ho
    obtain ⟨h, hh, hhe⟩ := hinv.orders_ref o ho
    refine ⟨h, List.mem_filter.mpr ⟨hh, ?_⟩, hhe⟩
    have : o.horseId ≠ horse.id := hno o ho
    simp only [decide_eq_true_eq]
    rw [hhe]
    exact this
  · intro h hmem
    exact hinv.status_ok h (List.mem_of_mem_filter hmem)
  · intro h hmem hA2
    exact hinv.avail_none h (List.mem_of_mem_filter hmem) hA2
  · intro h hmem hS
    exact hinv.sold_one h (List.mem_of_mem_filter hmem) hS

lemma inv_checkout {u : User} {hid : Nat} {f : CheckoutForm} {db db2 : DB} {ord : Order}
    (hinv : Inv db) (hok : checkout u hid f db = .ok (db2, ord)) : Inv db2 := by
  obtain ⟨horse, hfind, hA, hself, hoid, rfl⟩ := checkout_ok_shape hok
  obtain ⟨hmemh, hidh⟩ := findHorse_mem hfind
  have hcount0 := hinv.avail_none horse hmemh hA
  have hcount : ∀ n : Nat,
      (List.filter (fun o => decide (o.horseId = n)) (ord :: db.orders)).length
        = (if ord.horseId = n then 1 else 0) + ordersFor db n := by
    intro n
    rw [length_filter_cons]
    unfold ordersFor
    by_cases h : ord.horseId = n <;> simp [h]
  constructor
  · intro h hmem
    obtain ⟨h0, hh0, rfl⟩ := List.mem_map.mp hmem
    by_cases hc : h0.id = horse.id
    · show (if h0.id = horse.id then { horse with status := "SOLD" } else h0).id
        < db.nextHorseId
      rw [if_pos hc]
      show horse.id < db.nextHorseId
      rw [← hc]
      exact hinv.hid_lt h0 hh0
    · show (if h0.id = horse.id then { horse with status := "SOLD" } else h0).id
        < db.nextHorseId
      rw [if_neg hc]
      exact hinv.hid_lt h0 hh0
  · show ((db.horses.map _).map Horse.id).Nodup
    rw [map_update_ids db.horses horse { horse with status := "SOLD" } rfl]
    exact hinv.nodup
  · intro o ho
    rcases List.mem_cons.mp ho with rfl | hm
    · refine ⟨if horse.id = horse.id then { horse with status := "SOLD" } else horse,
        List.mem_map.mpr ⟨horse, hmemh, rfl⟩, ?_⟩
      rw [if_pos rfl]
      show horse.id = o.horseId
      rw [hoid]
    · obtain ⟨h, hh, hhe⟩ := hinv.orders_ref o hm
      refine ⟨if h.id = horse.id then { horse with status := "SOLD" } else h,
        List.mem_map.mpr ⟨h, hh, rfl⟩, ?_⟩
      by_cases hc : h.id = horse.id
      · rw [if_pos hc]
        show horse.id = o.horseId
        rw [← hc]
        exact hhe
      · rw [if_neg hc]
        exact hhe
  · intro h hmem
    obtain ⟨h0, hh0, rfl⟩ := List.mem_map.mp hmem
    by_cases hc : h0.id = horse.id
    · right
      rw [if_pos hc]
    · simp only [if_neg hc]
      exact hinv.status_ok h0 hh0
  · intro h hmem hA2
    obtain ⟨h0, hh0, rfl⟩ := List.mem_map.mp hmem
    by_cases hc : h0.id = horse.id
    · simp only [if_pos hc] at hA2
      exact absurd hA2 (by decide)
    · simp only [if_neg hc] at hA2 ⊢
      show (List.filter (fun o => decide (o.horseId = h0.id)) (ord :: db.orders)).length = 0
      rw [hcount]
      rw [if_neg (by rw [hoid]; exact fun e => hc e.symm)]
      simpa using hinv.avail_none h0 hh0 hA2
  · intro h hmem hS
    obtain ⟨h0, hh0, rfl⟩ := List.mem_map.mp hmem
    by_cases hc : h0.id = horse.id
    · simp only [if_pos hc]
      show (List.filter (fun o => decide (o.horseId = horse.id)) (ord :: db.orders)).length = 1
      rw [hcount, if_pos hoid, hcount0]
    · simp only [if_neg hc] at hS ⊢
      show (List.filter (fun o => decide (o.horseId = h0.id)) (ord :: db.orders)).length = 1
      rw [hcount]
      rw [if_neg (by rw [hoid]; exact fun e => hc e.symm)]
      simpa using hinv.sold_one h0 hh0 hS

lemma inv_step {db db2 : DB} (hinv : Inv db) (hstep : Step db db2) : Inv db2 := by
  cases hstep with
  | sell u f env db db' hid h => exact inv_sell hinv h
  | edit u hid f env db db' h => exact inv_edit hinv h
  | del u hid db db' h => exact inv_delete hinv h
  | checkout u hid f db db' ord h => exact inv_checkout hinv h

lemma inv_reachable {db : DB} (hr : Reachable db) : Inv db := by
  induction hr with
  | init => exact inv_empty
  | step _ hstep ih => exact inv_step ih hstep

/-- C2: in every state reachable from the empty store by committed
CreateListing, UpdateListing, DeleteListing and Checkout requests, a
listing's status is SOLD exactly when one Order row references it. -/
theorem reachable_sold_iff_one_order (db : DB) (hr : Reachable db) : SoldIffOrder db := by
  have hinv := inv_reachable hr
  intro h hmem
  constructor
  · exact hinv.sold_one h hmem
  · intro hcount
    rcases hinv.status_ok h hmem with hA | hS
    · rw [hinv.avail_none h hmem hA] at hcount
      cases hcount
    · exact hS

/-- C2 witness: the state reached by listing Thunder and then checking
it out satisfies the invariant. -/
theorem reachable_sold_iff_one_order_witness : SoldIffOrder dbSold :=
  reachable_sold_iff_one_order dbSold
    (Reachable.step
      (Reachable.step Reachable.init
        (Step.sell sellerB thunderForm envOff DB.empty dbThunder 1 (by decide)))
      (Step.checkout buyerA 1 shipForm dbThunder dbSold orderThunder (by decide)))

end Market
